import Mathlib

/-!
Verification development for the wasi-stub module transformation engine
(src/wasi-stub/src/main.rs).  The engine walks the payload sequence produced
by the binary decoder, removes every import whose module namespace is
"wasi_snapshot_preview1", synthesizes replacement local functions with the
same type indices, re-emits all other sections verbatim, and validates the
assembled result.

The shallow embedding below mirrors process_payloads: the mutable locals
(result, types, to_stub, code_section, in_code_section, after_wasi) become a
state record St, the for-loop over payloads becomes the recursion
run_payloads, and the Rust abort paths (the unsupported-layout case and an
out-of-bounds type index) become Except errors.  The external decoder,
encoder and validator are out of scope in the design document, so section
payloads arrive already decoded and the validator is a parameter on lists of
emitted sections; a raw section keeps its id and its exact content bytes.
-/

namespace WasiStub

/-- Value kinds of the binary format, as carried by function signatures. -/
inductive ValType
  | i32
  | i64
  | f32
  | f64
  | v128
  | funcref
  | externref
deriving DecidableEq, Repr

/-- A function signature: ordered parameter kinds and ordered result kinds. -/
structure FuncType where
  params : List ValType
  results : List ValType
deriving DecidableEq, Repr

/-- Import descriptor (wasmparser TypeRef): a function referencing a type
index, or one of the other import kinds. -/
inductive TypeRef
  | func (typeIdx : Nat)
  | table
  | memory
  | global
  | tag
deriving DecidableEq, Repr

/-- An import entry: module namespace, name, and descriptor. -/
structure Import where
  module : String
  name : String
  ty : TypeRef
deriving DecidableEq, Repr

/-- The only instructions the stub synthesizer emits. -/
inductive Instruction
  | i32Const (v : Int)
  | endInstr
deriving DecidableEq, Repr

/-- A synthesized function body: local declarations (count, kind) and an
instruction sequence. -/
structure Func where
  locals : List (Nat × ValType)
  instrs : List Instruction
deriving DecidableEq, Repr

/-- An entry of the in-progress code section: either a synthesized stub
function or the raw bytes of an original body, copied untouched. -/
inductive CodeEntry
  | func (f : Func)
  | raw (bytes : List Nat)
deriving DecidableEq, Repr

/-- A section emitted into the output module.  Raw sections carry the exact
id and content bytes taken from the input binary. -/
inductive Section
  | raw (id : Nat) (data : List Nat)
  | imports (entries : List Import)
  | functions (typeIdxs : List Nat)
  | code (entries : List CodeEntry)
deriving DecidableEq, Repr

/-- A decoded payload handed to the engine by the parser.  The catch-all
`other` models every payload the engine copies verbatim: `some (id, data)`
when the payload is a section (custom, memory, table, global, export, ...)
and `none` for the non-section payloads (version header, end marker). -/
inductive Payload
  | typeSection (types : List FuncType) (id : Nat) (data : List Nat)
  | importSection (imports : List Import)
  | functionSection (typeIdxs : List Nat)
  | codeSectionStart
  | codeSectionEntry (raw : List Nat)
  | other (sec : Option (Nat × List Nat))
deriving DecidableEq, Repr

/-- Terminal error kinds of the engine. -/
inductive Err
  | invalidInput
  | unsupportedImportLayout
  | typeIndexOutOfBounds
  | outputNotValid
deriving DecidableEq, Repr

/-- The fixed target namespace whose function imports are stubbed. -/
def targetNamespace : String := "wasi_snapshot_preview1"

/-- Stub body synthesizer: one local per declared parameter with the
matching kind; the body is `end` alone when the result list is empty and
`i32.const 76; end` otherwise (main.rs lines 107-119). -/
def stubFunction (ft : FuncType) : Func :=
  { locals := ft.params.map (fun t => (1, t))
    instrs :=
      if ft.results.isEmpty then [Instruction.endInstr]
      else [Instruction.i32Const 76, Instruction.endInstr] }

/-- Loop body of the import partitioner (main.rs lines 70-83).  The
accumulator holds the pass-through imports emitted so far, the
`after_wasi_count` option, and the `to_stub` list collected so far.  A
target-namespace import resets the counter to `some 0` and joins `to_stub`;
any other import is re-emitted and bumps the counter when it is set. -/
def partition_imports_go (acc : List Import × Option Nat × List Import) :
    List Import → List Import × Option Nat × List Import
  | [] => acc
  | imp :: imps =>
    if imp.module = targetNamespace then
      partition_imports_go (acc.1, some 0, acc.2.2 ++ [imp]) imps
    else
      partition_imports_go
        (acc.1 ++ [imp], (acc.2.1).map (fun n => n + 1), acc.2.2) imps

/-- Import partitioner: consumes the import list in order and returns
(pass-through imports, final after-wasi counter, to-stub imports). -/
def partition_imports (imps : List Import) :
    List Import × Option Nat × List Import :=
  partition_imports_go ([], none, []) imps

/-- The declaration half of the index-space rebuilder (main.rs lines 89-92):
one function declaration per to-stub import with a function descriptor,
reusing the very type index the import had. -/
def stub_decl_tys (fs : List Import) : List Nat :=
  fs.filterMap (fun f =>
    match f.ty with
    | TypeRef.func ty => some ty
    | _ => none)

/-- Stub-emission loop run at the start of the code section (main.rs lines
103-121).  For every to-stub import it first reports (module, name);
an import with a function descriptor then has its type looked up — an
out-of-bounds index aborts, as the Rust indexing does — and a stub body is
appended to the in-progress code section.  Non-function descriptors are
skipped after reporting. -/
def emitStubs (types : List FuncType) :
    List CodeEntry × List (String × String) → List Import →
    Except Err (List CodeEntry × List (String × String))
  | acc, [] => Except.ok acc
  | acc, f :: fs =>
    let acc2 : List CodeEntry × List (String × String) :=
      (acc.1, acc.2 ++ [(f.module, f.name)])
    match f.ty with
    | TypeRef.func ty =>
      match types[ty]? with
      | none => Except.error Err.typeIndexOutOfBounds
      | some ft =>
        emitStubs types (acc2.1 ++ [CodeEntry.func (stubFunction ft)], acc2.2) fs
    | _ => emitStubs types acc2 fs

/-- The mutable state of process_payloads: the output module assembled so
far, the recorded type table, the to-stub imports, the in-progress code
section, the in-code-section flag, the after-wasi counter, and the list of
(module, name) pairs reported while stubbing. -/
structure St where
  result : List Section
  types : List FuncType
  to_stub : List Import
  code_section : List CodeEntry
  in_code_section : Bool
  after_wasi : Nat
  reported : List (String × String)
deriving DecidableEq, Repr

/-- The initial state of one run (main.rs lines 46-51). -/
def initSt : St := ⟨[], [], [], [], false, 0, []⟩

/-- One iteration of the payload loop of process_payloads (main.rs lines
54-139), as a case split on the payload. -/
def step (st : St) : Payload → Except Err St
  | Payload.typeSection ts id data =>
    Except.ok { st with
      types := ts
      result := st.result ++ [Section.raw id data] }
  | Payload.importSection imps =>
    let p := partition_imports imps
    Except.ok { st with
      to_stub := st.to_stub ++ p.2.2
      after_wasi := (p.2.1).getD 0
      result := st.result ++ [Section.imports p.1] }
  | Payload.functionSection typeIdxs =>
    Except.ok { st with
      result :=
        st.result ++ [Section.functions (stub_decl_tys st.to_stub ++ typeIdxs)] }
  | Payload.codeSectionStart =>
    if st.after_wasi > 0 then Except.error Err.unsupportedImportLayout
    else
      match emitStubs st.types (st.code_section, st.reported) st.to_stub with
      | Except.error e => Except.error e
      | Except.ok (cs, rep) =>
        Except.ok { st with
          code_section := cs
          reported := rep
          in_code_section := true }
  | Payload.codeSectionEntry raw =>
    Except.ok { st with code_section := st.code_section ++ [CodeEntry.raw raw] }
  | Payload.other sec =>
    let st1 :=
      if st.in_code_section then
        { st with
          result := st.result ++ [Section.code st.code_section]
          in_code_section := false }
      else st
    match sec with
    | some (id, data) =>
      Except.ok { st1 with result := st1.result ++ [Section.raw id data] }
    | none => Except.ok st1

/-- The payload loop: thread the state through `step`, stopping at the
first error. -/
def run_payloads (st : St) : List Payload → Except Err St
  | [] => Except.ok st
  | p :: ps =>
    match step st p with
    | Except.error e => Except.error e
    | Except.ok st2 => run_payloads st2 ps

/-- process_payloads (main.rs lines 45-144): run the payload loop from the
initial state, then validate the assembled module; only a validated result
is returned, a failing validation is the OutputNotValid error.  The
structural validator is the external collaborator, passed as a parameter. -/
def process_payloads (validate : List Section → Bool) (payloads : List Payload) :
    Except Err (List Section × List (String × String)) :=
  match run_payloads initSt payloads with
  | Except.error e => Except.error e
  | Except.ok st =>
    if validate st.result then Except.ok (st.result, st.reported)
    else Except.error Err.outputNotValid

/-- The driver (main.rs lines 21-43): reject an input that fails structural
validation before any transformation, otherwise transform and, unless the
list-only flag is set, persist the output.  The returned option is `some`
exactly when the output buffer is persisted. -/
def main_model (validate : List Section → Bool) (input_valid : Bool)
    (payloads : List Payload) (list : Bool) :
    Except Err (Option (List Section) × List (String × String)) :=
  if ¬ input_valid then Except.error Err.invalidInput
  else
    match process_payloads validate payloads with
    | Except.error e => Except.error e
    | Except.ok (out, rep) =>
      Except.ok ((if list then none else some out), rep)

/-- Boolean test used in theorem hypotheses: the import has a function
descriptor whose type index is within the recorded type table. -/
def is_func_within (n : Nat) (i : Import) : Bool :=
  match i.ty with
  | TypeRef.func t => decide (t < n)
  | _ => false

/-- Boolean test: the descriptor is a function descriptor. -/
def is_func_ref : TypeRef → Bool
  | TypeRef.func _ => true
  | _ => false

/-- The code entries the stub-emission loop appends for a list of
to-stub entries whose type lookups succeed: one stub body per
function-descriptor entry, built from its signature. -/
def stub_bodies (types : List FuncType) (fs : List Import) : List CodeEntry :=
  fs.filterMap (fun f =>
    match f.ty with
    | TypeRef.func ty => (types[ty]?).map (fun ft => CodeEntry.func (stubFunction ft))
    | _ => none)

/-- Recognizer for raw (verbatim pass-through) output sections. -/
def isRawSec : Section → Bool
  | Section.raw _ _ => true
  | _ => false

/-- Recognizer for code output sections. -/
def isCodeSec : Section → Bool
  | Section.code _ => true
  | _ => false

/-- The raw sections the engine must copy verbatim from a payload list, in
input order: the type section and every `other` payload that is a section. -/
def raw_sections : List Payload → List Section
  | [] => []
  | Payload.typeSection _ id data :: ps => Section.raw id data :: raw_sections ps
  | Payload.other (some (id, data)) :: ps => Section.raw id data :: raw_sections ps
  | _ :: ps => raw_sections ps

/-- Number of code-section-start payloads in the input. -/
def count_code_starts : List Payload → Nat
  | [] => 0
  | Payload.codeSectionStart :: ps => count_code_starts ps + 1
  | _ :: ps => count_code_starts ps

end WasiStub

namespace WasiStub

/-! Helper lemmas about the import partitioner. -/

theorem partition_imports_go_append (xs ys : List Import) :
    ∀ acc, partition_imports_go acc (xs ++ ys) =
      partition_imports_go (partition_imports_go acc xs) ys := by
  induction xs with
  | nil => intro acc; rfl
  | cons x xs ih =>
    intro acc
    by_cases h : x.module = targetNamespace
    · simp [partition_imports_go, h, ih]
    · simp [partition_imports_go, h, ih]

theorem partition_imports_go_nontarget (others : List Import)
    (h : ∀ i ∈ others, ¬ i.module = targetNamespace) :
    ∀ a c, partition_imports_go (a, none, c) others = (a ++ others, none, c) := by
  induction others with
  | nil => intro a c; simp [partition_imports_go]
  | cons x xs ih =>
    intro a c
    have hx : ¬ x.module = targetNamespace := h x (List.mem_cons_self x xs)
    have hxs : ∀ i ∈ xs, ¬ i.module = targetNamespace :=
      fun i hi => h i (List.mem_cons_of_mem x hi)
    simp [partition_imports_go, hx, ih hxs]

theorem partition_imports_go_target (wasis : List Import)
    (h : ∀ i ∈ wasis, i.module = targetNamespace) (hne : wasis ≠ []) :
    ∀ a b c, partition_imports_go (a, b, c) wasis = (a, some 0, c ++ wasis) := by
  induction wasis with
  | nil => exact absurd rfl hne
  | cons x xs ih =>
    intro a b c
    have hx : x.module = targetNamespace := h x (List.mem_cons_self x xs)
    have hxs : ∀ i ∈ xs, i.module = targetNamespace :=
      fun i hi => h i (List.mem_cons_of_mem x hi)
    by_cases hn : xs = []
    · subst hn; simp [partition_imports_go, hx]
    · simp [partition_imports_go, hx, ih hxs hn]

theorem partition_imports_split (others wasis : List Import)
    (h1 : ∀ i ∈ others, ¬ i.module = targetNamespace)
    (h2 : ∀ i ∈ wasis, i.module = targetNamespace) :
    (partition_imports (others ++ wasis)).1 = others ∧
      (partition_imports (others ++ wasis)).2.2 = wasis ∧
      ((partition_imports (others ++ wasis)).2.1).getD 0 = 0 := by
  unfold partition_imports
  rw [partition_imports_go_append, partition_imports_go_nontarget others h1]
  by_cases hn : wasis = []
  · subst hn; simp [partition_imports_go]
  · rw [partition_imports_go_target wasis h2 hn]; simp

end WasiStub

namespace WasiStub

/-! Helper lemmas about stub emission and the payload loop. -/

theorem emitStubs_ok (types : List FuncType) (fs : List Import)
    (h : ∀ f ∈ fs, is_func_within types.length f = true) :
    ∀ cs rep, emitStubs types (cs, rep) fs =
      Except.ok (cs ++ stub_bodies types fs,
        rep ++ fs.map (fun f => (f.module, f.name))) := by
  induction fs with
  | nil => intro cs rep; simp [emitStubs, stub_bodies]
  | cons f fs ih =>
    intro cs rep
    have hf := h f (List.mem_cons_self f fs)
    have hfs : ∀ g ∈ fs, is_func_within types.length g = true :=
      fun g hg => h g (List.mem_cons_of_mem f hg)
    unfold is_func_within at hf
    cases hty : f.ty with
    | func t =>
      rw [hty] at hf
      have ht : t < types.length := by simpa using hf
      have hget : types[t]? = some types[t] := List.getElem?_eq_getElem ht
      simp only [emitStubs, hty, hget]
      rw [ih hfs]
      simp [stub_bodies, hty, hget, List.filterMap_cons]
    | table => rw [hty] at hf; simp at hf
    | memory => rw [hty] at hf; simp at hf
    | global => rw [hty] at hf; simp at hf
    | tag => rw [hty] at hf; simp at hf

theorem stub_decl_tys_length (n : Nat) (fs : List Import)
    (h : ∀ f ∈ fs, is_func_within n f = true) :
    (stub_decl_tys fs).length = fs.length := by
  induction fs with
  | nil => rfl
  | cons f fs ih =>
    have hf := h f (List.mem_cons_self f fs)
    have hfs : ∀ g ∈ fs, is_func_within n g = true :=
      fun g hg => h g (List.mem_cons_of_mem f hg)
    unfold is_func_within at hf
    cases hty : f.ty with
    | func t =>
      have hc : stub_decl_tys (f :: fs) = t :: stub_decl_tys fs := by
        simp [stub_decl_tys, List.filterMap_cons, hty]
      rw [hc, List.length_cons, List.length_cons, ih hfs]
    | table => rw [hty] at hf; simp at hf
    | memory => rw [hty] at hf; simp at hf
    | global => rw [hty] at hf; simp at hf
    | tag => rw [hty] at hf; simp at hf

theorem stub_bodies_length (types : List FuncType) (fs : List Import)
    (h : ∀ f ∈ fs, is_func_within types.length f = true) :
    (stub_bodies types fs).length = fs.length := by
  induction fs with
  | nil => rfl
  | cons f fs ih =>
    have hf := h f (List.mem_cons_self f fs)
    have hfs : ∀ g ∈ fs, is_func_within types.length g = true :=
      fun g hg => h g (List.mem_cons_of_mem f hg)
    unfold is_func_within at hf
    cases hty : f.ty with
    | func t =>
      rw [hty] at hf
      have ht : t < types.length := by simpa using hf
      have hget : types[t]? = some types[t] := List.getElem?_eq_getElem ht
      have hc : stub_bodies types (f :: fs) =
          CodeEntry.func (stubFunction types[t]) :: stub_bodies types fs := by
        simp [stub_bodies, List.filterMap_cons, hty, hget]
      rw [hc, List.length_cons, List.length_cons, ih hfs]
    | table => rw [hty] at hf; simp at hf
    | memory => rw [hty] at hf; simp at hf
    | global => rw [hty] at hf; simp at hf
    | tag => rw [hty] at hf; simp at hf

theorem run_payloads_cons_ok {st st2 : St} {p : Payload} (ps : List Payload)
    (h : step st p = Except.ok st2) :
    run_payloads st (p :: ps) = run_payloads st2 ps := by
  simp [run_payloads, h]

theorem run_payloads_append (ps qs : List Payload) :
    ∀ st, run_payloads st (ps ++ qs) =
      match run_payloads st ps with
      | Except.error e => Except.error e
      | Except.ok st2 => run_payloads st2 qs := by
  induction ps with
  | nil => intro st; simp [run_payloads]
  | cons p ps ih =>
    intro st
    cases h : step st p with
    | error e => simp [run_payloads, h]
    | ok st2 => simp [run_payloads, h, ih st2]

theorem run_payloads_code_entries (bodies : List (List Nat)) :
    ∀ st : St, run_payloads st (bodies.map Payload.codeSectionEntry) =
      Except.ok { st with code_section := st.code_section ++ bodies.map CodeEntry.raw } := by
  induction bodies with
  | nil => intro st; simp [run_payloads]
  | cons b bs ih =>
    intro st
    have hstep : step st (Payload.codeSectionEntry b) =
        Except.ok { st with code_section := st.code_section ++ [CodeEntry.raw b] } := rfl
    rw [List.map_cons, run_payloads_cons_ok _ hstep, ih]
    simp

end WasiStub

namespace WasiStub

/-- C2: the claim says every import list in which a non-target import
appears strictly after some target import makes the engine fail with
UnsupportedImportLayout.  The code instead resets its after-target counter
to zero on every later target import, so the layout [target, other, target]
is processed without any error and an output module is assembled — with the
pass-through import moved before both stubs, scrambling the original
function index space.  This theorem evaluates the engine at that failing
input. -/
theorem c2_after_wasi_reset_eval :
    process_payloads (fun _ => true)
      [Payload.typeSection [⟨[], []⟩] 1 [42],
       Payload.importSection
         [⟨targetNamespace, "a", TypeRef.func 0⟩,
          ⟨"env", "b", TypeRef.func 0⟩,
          ⟨targetNamespace, "a", TypeRef.func 0⟩],
       Payload.functionSection [],
       Payload.codeSectionStart,
       Payload.other none]
      = Except.ok
          ([Section.raw 1 [42],
            Section.imports [⟨"env", "b", TypeRef.func 0⟩],
            Section.functions [0, 0],
            Section.code
              [CodeEntry.func ⟨[], [Instruction.endInstr]⟩,
               CodeEntry.func ⟨[], [Instruction.endInstr]⟩]],
           [(targetNamespace, "a"), (targetNamespace, "a")]) := by rfl

/-- C3: for every signature, the stub synthesized for a target function
entry has exactly one local per declared parameter with the matching value
kind, and its body is a single end instruction when the result list is
empty, and exactly the 32-bit constant 76 followed by end otherwise. -/
theorem c3_stub_signature_fidelity (ft : FuncType) (nm : String) :
    process_payloads (fun _ => true)
      [Payload.typeSection [ft] 1 [],
       Payload.importSection [⟨targetNamespace, nm, TypeRef.func 0⟩],
       Payload.functionSection [],
       Payload.codeSectionStart,
       Payload.other none]
      = Except.ok
          ([Section.raw 1 [],
            Section.imports [],
            Section.functions [0],
            Section.code
              [CodeEntry.func
                ⟨ft.params.map (fun t => (1, t)),
                 if ft.results.isEmpty then [Instruction.endInstr]
                 else [Instruction.i32Const 76, Instruction.endInstr]⟩]],
           [(targetNamespace, nm)]) := by rfl

/-- C4 counterexample: the claim says a target-namespace import with a
non-function descriptor is never selected as a stub candidate and is
re-emitted as a pass-through import.  Running the engine on a module whose
only entry is a target-namespace memory import shows the opposite:
the entry is reported as a stub candidate and the output import section is
empty. -/
theorem c4_nonfunc_target_counterexample :
    ¬ (∀ out rep,
        process_payloads (fun _ => true)
          [Payload.importSection [⟨targetNamespace, "m", TypeRef.memory⟩],
           Payload.codeSectionStart,
           Payload.other none] = Except.ok (out, rep) →
        Section.imports [⟨targetNamespace, "m", TypeRef.memory⟩] ∈ out) := by
  intro h
  have h2 := h [Section.imports [], Section.code []] [(targetNamespace, "m")] rfl
  revert h2
  decide

/-- C4 amended: every target-namespace import is selected as a stub
candidate whatever its descriptor — it is removed from the output import
section and reported — and when its descriptor is not a function it is
skipped during function- and code-section emission, so no stub declaration
or body is produced for it. -/
theorem c4_nonfunc_target_dropped (w : Import)
    (hmod : w.module = targetNamespace)
    (hfun : is_func_ref w.ty = false) :
    process_payloads (fun _ => true)
      [Payload.importSection [w],
       Payload.functionSection [],
       Payload.codeSectionStart,
       Payload.other none]
      = Except.ok
          ([Section.imports [], Section.functions [], Section.code []],
           [(w.module, w.name)]) := by
  cases hty : w.ty with
  | func t => rw [hty] at hfun; simp [is_func_ref] at hfun
  | table =>
    simp [process_payloads, run_payloads, step, partition_imports,
      partition_imports_go, hmod, hty, stub_decl_tys, emitStubs, initSt]
  | memory =>
    simp [process_payloads, run_payloads, step, partition_imports,
      partition_imports_go, hmod, hty, stub_decl_tys, emitStubs, initSt]
  | global =>
    simp [process_payloads, run_payloads, step, partition_imports,
      partition_imports_go, hmod, hty, stub_decl_tys, emitStubs, initSt]
  | tag =>
    simp [process_payloads, run_payloads, step, partition_imports,
      partition_imports_go, hmod, hty, stub_decl_tys, emitStubs, initSt]

/-- C4 witness: the amended statement evaluated at a concrete
target-namespace memory import. -/
theorem c4_witness :
    process_payloads (fun _ => true)
      [Payload.importSection [⟨targetNamespace, "m", TypeRef.memory⟩],
       Payload.functionSection [],
       Payload.codeSectionStart,
       Payload.other none]
      = Except.ok
          ([Section.imports [], Section.functions [], Section.code []],
           [(targetNamespace, "m")]) :=
  c4_nonfunc_target_dropped ⟨targetNamespace, "m", TypeRef.memory⟩ rfl rfl

/-- C7: an input buffer that fails structural validation makes the driver
fail with the invalid-input error before any transformation, whatever the
payloads, the validator and the list-only flag; no output is produced. -/
theorem c7_input_not_valid (validate : List Section → Bool)
    (payloads : List Payload) (list : Bool) :
    main_model validate false payloads list = Except.error Err.invalidInput := by
  simp [main_model]

/-- C8: the import partitioner is a pure function of the import list, so
running it twice on the same list yields identical
(pass-through, counter, to-stub) partitions. -/
theorem c8_partition_deterministic (imps : List Import) :
    partition_imports imps = partition_imports imps := rfl

end WasiStub

namespace WasiStub

/-- C5: the engine returns an assembled output only when the validator
accepts it, and when the assembled module fails validation the engine fails
with the output-not-valid error; no unvalidated buffer is ever returned. -/
theorem c5_output_validation_gate (validate : List Section → Bool)
    (payloads : List Payload) :
    (∀ out rep, process_payloads validate payloads = Except.ok (out, rep) →
      validate out = true) ∧
    (∀ st, run_payloads initSt payloads = Except.ok st →
      validate st.result = false →
      process_payloads validate payloads = Except.error Err.outputNotValid) := by
  constructor
  · intro out rep h
    cases hr : run_payloads initSt payloads with
    | error e => simp [process_payloads, hr] at h
    | ok st =>
      simp only [process_payloads, hr] at h
      by_cases hv : validate st.result = true
      · rw [if_pos hv] at h
        injection h with h2
        injection h2 with h3 h4
        subst h3
        exact hv
      · rw [if_neg hv] at h; cases h
  · intro st hr hv
    simp only [process_payloads, hr]
    rw [if_neg (by simp [hv])]

/-- C5 witness: a validator accepting only the empty module accepts the
output of the empty payload list, and rejects the module assembled from one
raw section, which makes the engine fail with the output-not-valid error. -/
theorem c5_witness :
    ((fun out : List Section => out.isEmpty) [] = true) ∧
    (process_payloads (fun out => out.isEmpty) [Payload.other (some (1, []))]
      = Except.error Err.outputNotValid) := by
  constructor
  · exact (c5_output_validation_gate (fun out => out.isEmpty) []).1 [] [] rfl
  · exact (c5_output_validation_gate (fun out => out.isEmpty)
      [Payload.other (some (1, []))]).2
      ⟨[Section.raw 1 []], [], [], [], false, 0, []⟩ rfl rfl

/-- C9: with a valid input, the transformation runs in both modes and
reports the same stub candidates; in list-only mode nothing is persisted
(the persisted slot is none) while otherwise the validated output is
persisted. -/
theorem c9_list_mode (validate : List Section → Bool) (payloads : List Payload)
    (out : List Section) (rep : List (String × String))
    (h : process_payloads validate payloads = Except.ok (out, rep)) :
    main_model validate true payloads true = Except.ok (none, rep) ∧
    main_model validate true payloads false = Except.ok (some out, rep) := by
  constructor <;> simp [main_model, h]

/-- C9 witness: the two modes evaluated on the empty payload list. -/
theorem c9_witness :
    main_model (fun _ => true) true [] true = Except.ok (none, []) ∧
    main_model (fun _ => true) true [] false = Except.ok (some [], []) :=
  c9_list_mode (fun _ => true) [] [] [] rfl

end WasiStub

namespace WasiStub

/-- Invariant: a successful run appends to the raw (verbatim pass-through)
subsequence of the output exactly the raw sections of the consumed
payloads, in order. -/
theorem run_payloads_raw_filter (ps : List Payload) :
    ∀ st st2, run_payloads st ps = Except.ok st2 →
      st2.result.filter isRawSec = st.result.filter isRawSec ++ raw_sections ps := by
  induction ps with
  | nil =>
    intro st st2 h
    injection h with h1
    subst h1
    simp [raw_sections]
  | cons p ps ih =>
    intro st st2 h
    cases p with
    | typeSection ts id data =>
      have hs : step st (Payload.typeSection ts id data) =
          Except.ok { st with types := ts, result := st.result ++ [Section.raw id data] } := rfl
      rw [run_payloads_cons_ok ps hs] at h
      rw [ih _ _ h]
      simp [List.filter_append, isRawSec, raw_sections]
    | importSection imps =>
      have hs : step st (Payload.importSection imps) =
          Except.ok { st with
            to_stub := st.to_stub ++ (partition_imports imps).2.2
            after_wasi := ((partition_imports imps).2.1).getD 0
            result := st.result ++ [Section.imports (partition_imports imps).1] } := rfl
      rw [run_payloads_cons_ok ps hs] at h
      rw [ih _ _ h]
      simp [List.filter_append, isRawSec, raw_sections]
    | functionSection typeIdxs =>
      have hs : step st (Payload.functionSection typeIdxs) =
          Except.ok { st with
            result := st.result ++ [Section.functions (stub_decl_tys st.to_stub ++ typeIdxs)] } := rfl
      rw [run_payloads_cons_ok ps hs] at h
      rw [ih _ _ h]
      simp [List.filter_append, isRawSec, raw_sections]
    | codeSectionStart =>
      cases hs : step st Payload.codeSectionStart with
      | error e => simp [run_payloads, hs] at h
      | ok stX =>
        rw [run_payloads_cons_ok ps hs] at h
        have hres : stX.result = st.result := by
          unfold step at hs
          by_cases ha : st.after_wasi > 0
          · rw [if_pos ha] at hs; cases hs
          · rw [if_neg ha] at hs
            cases he : emitStubs st.types (st.code_section, st.reported) st.to_stub with
            | error e => rw [he] at hs; cases hs
            | ok pr =>
              obtain ⟨cs, rep⟩ := pr
              rw [he] at hs
              injection hs with h1
              rw [← h1]
        rw [ih _ _ h, hres]
        simp [raw_sections]
    | codeSectionEntry raw =>
      have hs : step st (Payload.codeSectionEntry raw) =
          Except.ok { st with code_section := st.code_section ++ [CodeEntry.raw raw] } := rfl
      rw [run_payloads_cons_ok ps hs] at h
      rw [ih _ _ h]
      simp [raw_sections]
    | other sec =>
      cases sec with
      | some pr =>
        obtain ⟨id, data⟩ := pr
        by_cases hf : st.in_code_section = true
        · have hs : step st (Payload.other (some (id, data))) =
              Except.ok { st with
                result := (st.result ++ [Section.code st.code_section]) ++ [Section.raw id data]
                in_code_section := false } := by
            simp [step, hf]
          rw [run_payloads_cons_ok ps hs] at h
          rw [ih _ _ h]
          simp [List.filter_append, isRawSec, raw_sections]
        · have hs : step st (Payload.other (some (id, data))) =
              Except.ok { st with result := st.result ++ [Section.raw id data] } := by
            simp [step, hf]
          rw [run_payloads_cons_ok ps hs] at h
          rw [ih _ _ h]
          simp [List.filter_append, isRawSec, raw_sections]
      | none =>
        by_cases hf : st.in_code_section = true
        · have hs : step st (Payload.other none) =
              Except.ok { st with
                result := st.result ++ [Section.code st.code_section]
                in_code_section := false } := by
            simp [step, hf]
          rw [run_payloads_cons_ok ps hs] at h
          rw [ih _ _ h]
          simp [List.filter_append, isRawSec, raw_sections]
        · have hs : step st (Payload.other none) = Except.ok st := by
            simp [step, hf]
          rw [run_payloads_cons_ok ps hs] at h
          rw [ih _ _ h]
          simp [raw_sections]

/-- C6: in a successful run the verbatim raw sections of the output — the
type section and every section whose kind is not import, function or code —
are exactly the corresponding input sections, byte-identical and in the
same relative order. -/
theorem c6_passthrough_fidelity (payloads : List Payload) (st : St)
    (h : run_payloads initSt payloads = Except.ok st) :
    st.result.filter isRawSec = raw_sections payloads := by
  have h2 := run_payloads_raw_filter payloads initSt st h
  simpa [initSt] using h2

/-- C6 witness: a run over a single opaque section payload. -/
theorem c6_witness :
    (⟨[Section.raw 9 [1, 2]], [], [], [], false, 0, []⟩ : St).result.filter isRawSec
      = raw_sections [Payload.other (some (9, [1, 2]))] :=
  c6_passthrough_fidelity [Payload.other (some (9, [1, 2]))]
    ⟨[Section.raw 9 [1, 2]], [], [], [], false, 0, []⟩ rfl

end WasiStub

namespace WasiStub

/-- Invariant: the number of code sections flushed into the output, plus one
if the in-code-section flag is still set, grows by at most the number of
code-section-start payloads consumed, because only a code-section start sets
the flag and flushing clears it. -/
theorem run_payloads_code_count (ps : List Payload) :
    ∀ st st2, run_payloads st ps = Except.ok st2 →
      st2.result.countP isCodeSec + (if st2.in_code_section then 1 else 0) ≤
        st.result.countP isCodeSec + (if st.in_code_section then 1 else 0) +
          count_code_starts ps := by
  induction ps with
  | nil =>
    intro st st2 h
    injection h with h1
    subst h1
    simp [count_code_starts]
  | cons p ps ih =>
    intro st st2 h
    cases p with
    | typeSection ts id data =>
      have hs : step st (Payload.typeSection ts id data) =
          Except.ok { st with types := ts, result := st.result ++ [Section.raw id data] } := rfl
      rw [run_payloads_cons_ok ps hs] at h
      have h2 := ih _ _ h
      simp [List.countP_append, isCodeSec, count_code_starts] at h2 ⊢
      omega
    | importSection imps =>
      have hs : step st (Payload.importSection imps) =
          Except.ok { st with
            to_stub := st.to_stub ++ (partition_imports imps).2.2
            after_wasi := ((partition_imports imps).2.1).getD 0
            result := st.result ++ [Section.imports (partition_imports imps).1] } := rfl
      rw [run_payloads_cons_ok ps hs] at h
      have h2 := ih _ _ h
      simp [List.countP_append, isCodeSec, count_code_starts] at h2 ⊢
      omega
    | functionSection typeIdxs =>
      have hs : step st (Payload.functionSection typeIdxs) =
          Except.ok { st with
            result := st.result ++ [Section.functions (stub_decl_tys st.to_stub ++ typeIdxs)] } := rfl
      rw [run_payloads_cons_ok ps hs] at h
      have h2 := ih _ _ h
      simp [List.countP_append, isCodeSec, count_code_starts] at h2 ⊢
      omega
    | codeSectionStart =>
      cases hs : step st Payload.codeSectionStart with
      | error e => simp [run_payloads, hs] at h
      | ok stX =>
        rw [run_payloads_cons_ok ps hs] at h
        have hX : stX.result = st.result ∧ stX.in_code_section = true := by
          unfold step at hs
          by_cases ha : st.after_wasi > 0
          · rw [if_pos ha] at hs; cases hs
          · rw [if_neg ha] at hs
            cases he : emitStubs st.types (st.code_section, st.reported) st.to_stub with
            | error e => rw [he] at hs; cases hs
            | ok pr =>
              obtain ⟨cs, rep⟩ := pr
              rw [he] at hs
              injection hs with h1
              rw [← h1]
              exact ⟨rfl, rfl⟩
        have h2 := ih _ _ h
        rw [hX.1, hX.2] at h2
        simp [count_code_starts] at h2 ⊢
        omega
    | codeSectionEntry raw =>
      have hs : step st (Payload.codeSectionEntry raw) =
          Except.ok { st with code_section := st.code_section ++ [CodeEntry.raw raw] } := rfl
      rw [run_payloads_cons_ok ps hs] at h
      have h2 := ih _ _ h
      simp [count_code_starts] at h2 ⊢
      omega
    | other sec =>
      cases sec with
      | some pr =>
        obtain ⟨id, data⟩ := pr
        by_cases hf : st.in_code_section = true
        · have hs : step st (Payload.other (some (id, data))) =
              Except.ok { st with
                result := (st.result ++ [Section.code st.code_section]) ++ [Section.raw id data]
                in_code_section := false } := by
            simp [step, hf]
          rw [run_payloads_cons_ok ps hs] at h
          have h2 := ih _ _ h
          simp [List.countP_append, isCodeSec, count_code_starts, hf] at h2 ⊢
          omega
        · have hs : step st (Payload.other (some (id, data))) =
              Except.ok { st with result := st.result ++ [Section.raw id data] } := by
            simp [step, hf]
          rw [run_payloads_cons_ok ps hs] at h
          have h2 := ih _ _ h
          simp [List.countP_append, isCodeSec, count_code_starts, hf] at h2 ⊢
          omega
      | none =>
        by_cases hf : st.in_code_section = true
        · have hs : step st (Payload.other none) =
              Except.ok { st with
                result := st.result ++ [Section.code st.code_section]
                in_code_section := false } := by
            simp [step, hf]
          rw [run_payloads_cons_ok ps hs] at h
          have h2 := ih _ _ h
          simp [List.countP_append, isCodeSec, count_code_starts, hf] at h2 ⊢
          omega
        · have hs : step st (Payload.other none) = Except.ok st := by
            simp [step, hf]
          rw [run_payloads_cons_ok ps hs] at h
          have h2 := ih _ _ h
          simp [count_code_starts, hf] at h2 ⊢
          omega

/-- C10: a payload stream with at most one code-section start — which is
what the validated parse of a module yields — produces an output containing
at most one code section: the in-progress code section is flushed at most
once because the in-code-section flag is cleared at the flush. -/
theorem c10_single_code_section (payloads : List Payload) (st : St)
    (h1 : count_code_starts payloads ≤ 1)
    (h2 : run_payloads initSt payloads = Except.ok st) :
    st.result.countP isCodeSec ≤ 1 := by
  have h3 := run_payloads_code_count payloads initSt st h2
  simp [initSt] at h3
  omega

/-- C10 witness: a run with one code-section start flushed by the end
marker. -/
theorem c10_witness :
    (⟨[Section.code []], [], [], [], false, 0, []⟩ : St).result.countP isCodeSec ≤ 1 :=
  c10_single_code_section [Payload.codeSectionStart, Payload.other none]
    ⟨[Section.code []], [], [], [], false, 0, []⟩ (by decide) rfl

end WasiStub

namespace WasiStub

/-- C1: for a module whose import list is m non-target imports followed by
k target-namespace function imports with in-range type indices, and with n
locally defined functions, the engine succeeds and the output consists of:
the type section re-emitted verbatim; an import section holding exactly the
m pass-through imports in original order; a function section whose k + n
declarations are one stub declaration per stub candidate in original order,
each carrying the very type index the import had, followed by the original
declarations in original order; and a code section whose entries are the k
synthesized stub bodies followed by the n original bodies as bit-identical
raw bytes. -/
theorem c1_index_space_preservation
    (ts : List FuncType) (tid : Nat) (tdata : List Nat)
    (others wasis : List Import) (decls : List Nat) (bodies : List (List Nat))
    (h1 : ∀ i ∈ others, ¬ i.module = targetNamespace)
    (h2 : ∀ i ∈ wasis, i.module = targetNamespace)
    (h3 : ∀ i ∈ wasis, is_func_within ts.length i = true) :
    process_payloads (fun _ => true)
      ([Payload.typeSection ts tid tdata,
        Payload.importSection (others ++ wasis),
        Payload.functionSection decls,
        Payload.codeSectionStart]
        ++ bodies.map Payload.codeSectionEntry
        ++ [Payload.other none])
      = Except.ok
          ([Section.raw tid tdata,
            Section.imports others,
            Section.functions (stub_decl_tys wasis ++ decls),
            Section.code (stub_bodies ts wasis ++ bodies.map CodeEntry.raw)],
           wasis.map (fun f => (f.module, f.name)))
      ∧ (stub_decl_tys wasis).length = wasis.length
      ∧ (stub_bodies ts wasis).length = wasis.length := by
  obtain ⟨hp1, hp2, hp3⟩ := partition_imports_split others wasis h1 h2
  refine ⟨?_, stub_decl_tys_length ts.length wasis h3, stub_bodies_length ts wasis h3⟩
  have s1 : step initSt (Payload.typeSection ts tid tdata) =
      Except.ok ⟨[Section.raw tid tdata], ts, [], [], false, 0, []⟩ := rfl
  have s2 : step ⟨[Section.raw tid tdata], ts, [], [], false, 0, []⟩
      (Payload.importSection (others ++ wasis)) =
      Except.ok ⟨[Section.raw tid tdata, Section.imports others],
        ts, wasis, [], false, 0, []⟩ := by
    simp [step, hp1, hp2, hp3]
  have s3 : step ⟨[Section.raw tid tdata, Section.imports others],
      ts, wasis, [], false, 0, []⟩ (Payload.functionSection decls) =
      Except.ok ⟨[Section.raw tid tdata, Section.imports others,
        Section.functions (stub_decl_tys wasis ++ decls)],
        ts, wasis, [], false, 0, []⟩ := rfl
  have s4 : step ⟨[Section.raw tid tdata, Section.imports others,
      Section.functions (stub_decl_tys wasis ++ decls)],
      ts, wasis, [], false, 0, []⟩ Payload.codeSectionStart =
      Except.ok ⟨[Section.raw tid tdata, Section.imports others,
        Section.functions (stub_decl_tys wasis ++ decls)],
        ts, wasis, stub_bodies ts wasis, true, 0,
        wasis.map (fun f => (f.module, f.name))⟩ := by
    simp [step, emitStubs_ok ts wasis h3]
  have s5 : run_payloads ⟨[Section.raw tid tdata, Section.imports others,
      Section.functions (stub_decl_tys wasis ++ decls)],
      ts, wasis, stub_bodies ts wasis, true, 0,
      wasis.map (fun f => (f.module, f.name))⟩
      (bodies.map Payload.codeSectionEntry) =
      Except.ok ⟨[Section.raw tid tdata, Section.imports others,
        Section.functions (stub_decl_tys wasis ++ decls)],
        ts, wasis, stub_bodies ts wasis ++ bodies.map CodeEntry.raw, true, 0,
        wasis.map (fun f => (f.module, f.name))⟩ :=
    run_payloads_code_entries bodies _
  have s6 : step ⟨[Section.raw tid tdata, Section.imports others,
      Section.functions (stub_decl_tys wasis ++ decls)],
      ts, wasis, stub_bodies ts wasis ++ bodies.map CodeEntry.raw, true, 0,
      wasis.map (fun f => (f.module, f.name))⟩ (Payload.other none) =
      Except.ok ⟨[Section.raw tid tdata, Section.imports others,
        Section.functions (stub_decl_tys wasis ++ decls),
        Section.code (stub_bodies ts wasis ++ bodies.map CodeEntry.raw)],
        ts, wasis, stub_bodies ts wasis ++ bodies.map CodeEntry.raw, false, 0,
        wasis.map (fun f => (f.module, f.name))⟩ := rfl
  have hrun : run_payloads initSt
      ([Payload.typeSection ts tid tdata,
        Payload.importSection (others ++ wasis),
        Payload.functionSection decls,
        Payload.codeSectionStart]
        ++ bodies.map Payload.codeSectionEntry
        ++ [Payload.other none])
      = Except.ok ⟨[Section.raw tid tdata, Section.imports others,
          Section.functions (stub_decl_tys wasis ++ decls),
          Section.code (stub_bodies ts wasis ++ bodies.map CodeEntry.raw)],
          ts, wasis, stub_bodies ts wasis ++ bodies.map CodeEntry.raw, false, 0,
          wasis.map (fun f => (f.module, f.name))⟩ := by
    have e1 : ([Payload.typeSection ts tid tdata,
        Payload.importSection (others ++ wasis),
        Payload.functionSection decls,
        Payload.codeSectionStart]
        ++ bodies.map Payload.codeSectionEntry
        ++ [Payload.other none])
        = Payload.typeSection ts tid tdata ::
          Payload.importSection (others ++ wasis) ::
          Payload.functionSection decls ::
          Payload.codeSectionStart ::
          (bodies.map Payload.codeSectionEntry ++ [Payload.other none]) := by
      simp
    rw [e1, run_payloads_cons_ok _ s1, run_payloads_cons_ok _ s2,
      run_payloads_cons_ok _ s3, run_payloads_cons_ok _ s4,
      run_payloads_append, s5]
    exact (run_payloads_cons_ok [] s6).trans rfl
  unfold process_payloads
  rw [hrun]
  rfl

/-- C1 witness: one pass-through import, one target function import, one
local declaration and one original body. -/
theorem c1_witness :
    process_payloads (fun _ => true)
      ([Payload.typeSection [⟨[ValType.i32], [ValType.i32]⟩] 1 [7],
        Payload.importSection
          ([⟨"env", "log", TypeRef.func 0⟩] ++ [⟨targetNamespace, "fd_write", TypeRef.func 0⟩]),
        Payload.functionSection [0],
        Payload.codeSectionStart]
        ++ [[0, 11]].map Payload.codeSectionEntry
        ++ [Payload.other none])
      = Except.ok
          ([Section.raw 1 [7],
            Section.imports [⟨"env", "log", TypeRef.func 0⟩],
            Section.functions
              (stub_decl_tys [⟨targetNamespace, "fd_write", TypeRef.func 0⟩] ++ [0]),
            Section.code
              (stub_bodies [⟨[ValType.i32], [ValType.i32]⟩]
                  [⟨targetNamespace, "fd_write", TypeRef.func 0⟩]
                ++ [[0, 11]].map CodeEntry.raw)],
           [(⟨targetNamespace, "fd_write", TypeRef.func 0⟩ : Import)].map
             (fun f => (f.module, f.name)))
      ∧ (stub_decl_tys [⟨targetNamespace, "fd_write", TypeRef.func 0⟩]).length = 1
      ∧ (stub_bodies [⟨[ValType.i32], [ValType.i32]⟩]
          [⟨targetNamespace, "fd_write", TypeRef.func 0⟩]).length = 1 :=
  c1_index_space_preservation [⟨[ValType.i32], [ValType.i32]⟩] 1 [7]
    [⟨"env", "log", TypeRef.func 0⟩] [⟨targetNamespace, "fd_write", TypeRef.func 0⟩]
    [0] [[0, 11]] (by decide) (by decide) (by decide)

end WasiStub
